import Mathlib

/-!
Shallow embedding of the caption-generation service of `abk-ss-imgcg`
(src/backend/generate_caption.py and src/pa_backend/app.py), together with
theorems checking the specification's claims about it.

Modelling conventions:
* The growing string `in_text` (words joined by single spaces) is represented
  by its whitespace-split token list `List String`; the route's
  `raw_desc.split()` is then the identity on that representation.
* The trained scoring model (`caption_model.predict` / `session.run` followed
  by `np.argmax`) is an opaque collaborator: a function from a feature value
  and the padded id sequence to a score vector, with `np.argmax` embedded
  explicitly. Scores are modelled as integers (their only role is comparison).
* Python functions that catch all exceptions and return `None` are embedded as
  `Option`-valued total functions; external library calls (`base64.b64decode`,
  `Image.open(...).convert("RGB")`, the Xception feature extractor) are
  opaque `Option`-valued parameters.
* The decode loops additionally report which halt condition fired and how many
  scoring calls were made; the plain functions are their first projection.
-/

namespace ImgCg

/-- Hyperparameter `max_length = 32` (backend line 25, pa_backend line 30). -/
def max_length : Nat := 32

/-- The pickled Keras tokenizer, reduced to what the code reads from it: its
`word_index` dict, an ordered association list from word to integer id. -/
structure Tokenizer where
  word_index : List (String × Nat)

/-- The linear scan inside `word_for_id`: first pair whose id equals the query
(Python dict iteration visits pairs in insertion order). -/
def lookupWordById : List (String × Nat) → Nat → Option String
  | [], _ => none
  | (w, idx) :: rest, integer =>
    if idx = integer then some w else lookupWordById rest integer

/-- `word_for_id` (backend lines 43-47, pa_backend lines 54-58): scan
`tokenizer.word_index.items()` for the first word with the given id,
returning `None` when no id matches. -/
def word_for_id (tok : Tokenizer) (integer : Nat) : Option String :=
  lookupWordById tok.word_index integer

/-- Forward lookup used by `tokenizer.texts_to_sequences`: first id stored
under the given word. -/
def lookupIdByWord : List (String × Nat) → String → Option Nat
  | [], _ => none
  | (w, idx) :: rest, word =>
    if w = word then some idx else lookupIdByWord rest word

/-- `tokenizer.texts_to_sequences([in_text])[0]`: each word of the text is
mapped to its id, words absent from `word_index` are dropped. -/
def texts_to_sequences (tok : Tokenizer) (words : List String) : List Nat :=
  words.filterMap (lookupIdByWord tok.word_index)

/-- Keras `pad_sequences([seq], maxlen=m)` with the default arguments used by
the code (`padding='pre'`, `truncating='pre'`, `value=0`): keep the last `m`
ids, then left-pad with zeros up to length `m`. -/
def pad_sequences (seq : List Nat) (maxlen : Nat) : List Nat :=
  let trunc := seq.drop (seq.length - maxlen)
  List.replicate (maxlen - trunc.length) 0 ++ trunc

/-- Accumulator loop for `np.argmax`: index of the first strict maximum. -/
def argmaxGo : List Int → Nat → Nat → Int → Nat
  | [], _, best, _ => best
  | x :: xs, i, best, bestVal =>
    if bestVal < x then argmaxGo xs (i + 1) i x
    else argmaxGo xs (i + 1) best bestVal

/-- `np.argmax` over the (flattened) score vector: index of the first maximal
entry, 0 on an empty vector. -/
def np_argmax : List Int → Nat
  | [] => 0
  | x :: xs => argmaxGo xs 1 0 x

/-- Which of the three halt conditions ended the decode loop. -/
inductive HaltReason
  | endToken
  | unknownToken
  | lengthBound
deriving DecidableEq

/-- One decode step's word, shared by both loop bodies (backend lines 80-88,
pa_backend lines 64-73): tokenize the current text, pad to `max_length`, score
with the model, take `np.argmax`, resolve the id through `word_for_id`. -/
def stepWord {F : Type} (tok : Tokenizer) (sess : F → List Nat → List Int)
    (feats : F) (in_text : List String) : Option String :=
  word_for_id tok
    (np_argmax (sess feats (pad_sequences (texts_to_sequences tok in_text) max_length)))

/-- The `for _ in range(max_length)` loop of `generate_desc` (backend lines
79-93), on remaining iteration count, current token list, and scoring calls
made so far. The word is appended first; only then does `word == "end"` stop
the loop. -/
def genGo {F : Type} (tok : Tokenizer) (sess : F → List Nat → List Int) (feats : F) :
    Nat → List String → Nat → List String × HaltReason × Nat
  | 0, t, calls => (t, HaltReason.lengthBound, calls)
  | n + 1, t, calls =>
    match stepWord tok sess feats t with
    | none => (t, HaltReason.unknownToken, calls + 1)
    | some word =>
      let t2 := t ++ [word]
      if word = "end" then (t2, HaltReason.endToken, calls + 1)
      else genGo tok sess feats n t2 (calls + 1)

/-- `generate_desc` (backend lines 73-95) with halt reason and scoring-call
count exposed. -/
def generate_descFull {F : Type} (tok : Tokenizer) (sess : F → List Nat → List Int)
    (feats : F) : List String × HaltReason × Nat :=
  genGo tok sess feats max_length ["start"] 0

/-- `generate_desc` (backend lines 73-95): the returned `in_text`, as its
token list. -/
def generate_desc {F : Type} (tok : Tokenizer) (sess : F → List Nat → List Int)
    (feats : F) : List String :=
  (generate_descFull tok sess feats).1

/-- The loop of `generate_desc_onnx` (pa_backend lines 63-77): here
`if not word or word == "end": break` runs BEFORE the append, so a falsy word
or `"end"` stops the loop without being appended. -/
def genGoOnnx {F : Type} (tok : Tokenizer) (sess : F → List Nat → List Int) (feats : F) :
    Nat → List String → Nat → List String × HaltReason × Nat
  | 0, t, calls => (t, HaltReason.lengthBound, calls)
  | n + 1, t, calls =>
    match stepWord tok sess feats t with
    | none => (t, HaltReason.unknownToken, calls + 1)
    | some word =>
      if word = "end" then (t, HaltReason.endToken, calls + 1)
      else if word = "" then (t, HaltReason.unknownToken, calls + 1)
      else genGoOnnx tok sess feats n (t ++ [word]) (calls + 1)

/-- `generate_desc_onnx` (pa_backend lines 61-78) with halt reason and
scoring-call count exposed. -/
def generate_descOnnxFull {F : Type} (tok : Tokenizer) (sess : F → List Nat → List Int)
    (feats : F) : List String × HaltReason × Nat :=
  genGoOnnx tok sess feats max_length ["start"] 0

/-- `generate_desc_onnx` (pa_backend lines 61-78): the returned `in_text`, as
its token list. -/
def generate_descOnnx {F : Type} (tok : Tokenizer) (sess : F → List Nat → List Int)
    (feats : F) : List String :=
  (generate_descOnnxFull tok sess feats).1

/-- The route's sentinel stripping (backend lines 134-139, pa_backend lines
97-102): drop a leading `"start"`, then drop a trailing `"end"`. -/
def stripTokens (tokens : List String) : List String :=
  let t1 := if tokens.head? = some "start" then tokens.tail else tokens
  if t1.getLast? = some "end" then t1.dropLast else t1

/-- `data_url.split(",", 1)` followed by unpacking into `header, encoded`:
splits at the first comma, `none` (a caught `ValueError`) when the string has
no comma. -/
def splitFirstComma : List Char → Option (List Char × List Char)
  | [] => none
  | c :: cs =>
    if c = ',' then some ([], cs)
    else
      match splitFirstComma cs with
      | none => none
      | some (h, e) => some (c :: h, e)

/-- `decode_data_url` (backend lines 99-109, pa_backend lines 38-44): split at
the first comma, base64-decode the part after it, open the bytes as an image;
any failure is caught and becomes `None`. The header part is bound but never
read. `b64decode` and `image_open` are the opaque library collaborators. -/
def decode_data_url {B Img : Type} (b64decode : List Char → Option B)
    (image_open : B → Option Img) (data_url : List Char) : Option Img :=
  match splitFirstComma data_url with
  | none => none
  | some (_header, encoded) =>
    match b64decode encoded with
    | none => none
    | some img_bytes => image_open img_bytes

/-- An HTTP response of the route: status code, optional `error` field,
optional `caption` field (the caption as its token list). -/
structure Response where
  status : Nat
  error : Option String
  caption : Option (List String)
deriving DecidableEq

/-- `generate_caption_route` (backend lines 113-141, pa_backend lines 81-104).
`get_json` models `request.get_json(silent=True)`: outer `none` is a JSON
parse failure, inner value is the `"image"` field (`none` when absent), the
data-URL being a character list so the empty string is `[]`. `or {}` then
`.get("image")` collapse the outer failure to a missing field. The
collaborators `b64decode`/`image_open` (inside `decode_data_url`) and
`extract_features` (`extract_features_from_pil`) are opaque parameters. -/
def generate_caption_route {B Img F : Type} (b64decode : List Char → Option B)
    (image_open : B → Option Img) (extract_features : Img → Option F)
    (tok : Tokenizer) (sess : F → List Nat → List Int)
    (get_json : Option (Option (List Char))) : Response :=
  match get_json.getD none with
  | none => ⟨400, some "No image provided", none⟩
  | some data_url =>
    if data_url = [] then ⟨400, some "No image provided", none⟩
    else
      match decode_data_url b64decode image_open data_url with
      | none => ⟨400, some "Failed to decode base64 image", none⟩
      | some pil_img =>
        match extract_features pil_img with
        | none => ⟨500, some "Feature extraction failed", none⟩
        | some photo_features =>
          ⟨200, none, some (stripTokens (generate_desc tok sess photo_features))⟩

/-- Boolean test that `p` is an initial segment of `l`. -/
def charsStartWith : List Char → List Char → Bool
  | [], _ => true
  | _ :: _, [] => false
  | p :: ps, c :: cs => if p = c then charsStartWith ps cs else false

/-- Refinement-side definition following the spec's words (§6: the image field
is a data-URL `data:<mime>;base64,<payload>`): a supported image data-URL
header is one whose mime type is an image type, i.e. the header starts with
`data:image/`. The code itself has no such notion. -/
def spec_isSupportedImageHeader (header : List Char) : Bool :=
  charsStartWith "data:image/".toList header

/-- A small concrete vocabulary for concrete runs. -/
def vocabA : Tokenizer := ⟨[("start", 1), ("end", 2), ("a", 3)]⟩

/-- A concrete scoring collaborator whose argmax id is 2, the id of `"end"`
in `vocabA`. -/
def sessEnd : Unit → List Nat → List Int := fun _ _ => [0, 0, 1, 0]

/-- A concrete scoring collaborator whose argmax id is 3, the id of `"a"`
in `vocabA`. -/
def sessA : Unit → List Nat → List Int := fun _ _ => [0, 0, 0, 1]

/-- A concrete scoring collaborator whose argmax id is 0, assigned to no word
in `vocabA`. -/
def sessUnk : Unit → List Nat → List Int := fun _ _ => [1]

/-- A concrete base64 collaborator that always fails. -/
def b64None : List Char → Option Unit := fun _ => none

/-- A concrete base64 collaborator that decodes every payload (to itself). -/
def b64Id : List Char → Option (List Char) := fun s => some s

/-- A concrete image-open collaborator that accepts any bytes as a valid
image. -/
def openUnit {B : Type} : B → Option Unit := fun _ => some ()

/-- A concrete feature extractor that always fails. -/
def extractNone : Unit → Option Unit := fun _ => none

/-- A concrete feature extractor that always succeeds. -/
def extractUnit : Unit → Option Unit := fun _ => some ()

end ImgCg

namespace ImgCg

/-! ## Helper lemmas -/

/-- An element absent from a list is not its last element. -/
theorem getLastNeOfNotMem {a : String} : ∀ l : List String, a ∉ l → l.getLast? ≠ some a
  | [], _ => by simp
  | [x], h => by
    simp only [List.getLast?_singleton, ne_eq, Option.some.injEq]
    intro hx
    exact h (by simp [hx])
  | x :: y :: rest, h => by
    rw [List.getLast?_cons_cons]
    exact getLastNeOfNotMem (y :: rest) (fun hm => h (List.mem_cons_of_mem _ hm))

/-- The scoring-call counter of the backend loop grows by at most the
remaining iteration count. -/
theorem genGo_calls_le {F : Type} (tok : Tokenizer) (sess : F → List Nat → List Int)
    (feats : F) : ∀ (n : Nat) (t : List String) (calls : Nat),
    (genGo tok sess feats n t calls).2.2 ≤ calls + n := by
  intro n
  induction n with
  | zero => intro t c; simp [genGo]
  | succ n ih =>
    intro t c
    cases hsw : stepWord tok sess feats t with
    | none =>
      have he : (genGo tok sess feats (n + 1) t c).2.2 = c + 1 := by
        simp [genGo, hsw]
      rw [he]; omega
    | some w =>
      by_cases hw : w = "end"
      · subst hw
        have he : (genGo tok sess feats (n + 1) t c).2.2 = c + 1 := by
          simp [genGo, hsw]
        rw [he]; omega
      · simp only [genGo, hsw, if_neg hw]
        exact le_trans (ih (t ++ [w]) (c + 1)) (by omega)

/-- The scoring-call counter of the onnx loop grows by at most the remaining
iteration count. -/
theorem genGoOnnx_calls_le {F : Type} (tok : Tokenizer) (sess : F → List Nat → List Int)
    (feats : F) : ∀ (n : Nat) (t : List String) (calls : Nat),
    (genGoOnnx tok sess feats n t calls).2.2 ≤ calls + n := by
  intro n
  induction n with
  | zero => intro t c; simp [genGoOnnx]
  | succ n ih =>
    intro t c
    cases hsw : stepWord tok sess feats t with
    | none =>
      have he : (genGoOnnx tok sess feats (n + 1) t c).2.2 = c + 1 := by
        simp [genGoOnnx, hsw]
      rw [he]; omega
    | some w =>
      by_cases hw : w = "end"
      · subst hw
        have he : (genGoOnnx tok sess feats (n + 1) t c).2.2 = c + 1 := by
          simp [genGoOnnx, hsw]
        rw [he]; omega
      · by_cases hw0 : w = ""
        · subst hw0
          have he : (genGoOnnx tok sess feats (n + 1) t c).2.2 = c + 1 := by
            simp [genGoOnnx, hsw, hw]
          rw [he]; omega
        · simp only [genGoOnnx, hsw, if_neg hw, if_neg hw0]
          exact le_trans (ih (t ++ [w]) (c + 1)) (by omega)

/-- In the backend loop, an end-token halt leaves `"end"` as the last
appended word. -/
theorem genGo_end_halt {F : Type} (tok : Tokenizer) (sess : F → List Nat → List Int)
    (feats : F) : ∀ (n : Nat) (t : List String) (calls : Nat),
    (genGo tok sess feats n t calls).2.1 = HaltReason.endToken →
    (genGo tok sess feats n t calls).1.getLast? = some "end" := by
  intro n
  induction n with
  | zero => intro t c h; simp [genGo] at h
  | succ n ih =>
    intro t c
    cases hsw : stepWord tok sess feats t with
    | none => intro h; simp [genGo, hsw] at h
    | some w =>
      by_cases hw : w = "end"
      · intro _
        simp only [genGo, hsw, hw, if_pos rfl]
        exact List.getLast?_concat _
      · intro h
        simp only [genGo, hsw, if_neg hw] at h ⊢
        exact ih (t ++ [w]) (c + 1) h

/-- In the onnx loop, `"end"` is never appended: if it is absent from the
current text it is absent from the result. -/
theorem genGoOnnx_no_end {F : Type} (tok : Tokenizer) (sess : F → List Nat → List Int)
    (feats : F) : ∀ (n : Nat) (t : List String) (calls : Nat),
    "end" ∉ t → "end" ∉ (genGoOnnx tok sess feats n t calls).1 := by
  intro n
  induction n with
  | zero => intro t c h; simpa [genGoOnnx] using h
  | succ n ih =>
    intro t c h
    cases hsw : stepWord tok sess feats t with
    | none => simpa [genGoOnnx, hsw] using h
    | some w =>
      by_cases hw : w = "end"
      · simpa [genGoOnnx, hsw, hw] using h
      · by_cases hw0 : w = ""
        · simpa [genGoOnnx, hsw, if_neg hw, hw0] using h
        · simp only [genGoOnnx, hsw, if_neg hw, if_neg hw0]
          refine ih (t ++ [w]) (c + 1) (fun hm => ?_)
          rcases List.mem_append.1 hm with h1 | h1
          · exact h h1
          · simp only [List.mem_singleton] at h1
            exact hw h1.symm

/-- When every step resolves to a known non-`"end"` word, the backend loop
runs all its iterations, appending one word per iteration and making one
scoring call per iteration. -/
theorem genGo_all_words {F : Type} (tok : Tokenizer) (sess : F → List Nat → List Int)
    (feats : F)
    (h : ∀ t : List String, ∃ w, stepWord tok sess feats t = some w ∧ w ≠ "end") :
    ∀ (n : Nat) (t : List String) (calls : Nat), ∃ ws : List String,
      genGo tok sess feats n t calls = (t ++ ws, HaltReason.lengthBound, calls + n) ∧
      ws.length = n ∧ ∀ w ∈ ws, w ≠ "end" := by
  intro n
  induction n with
  | zero => intro t c; exact ⟨[], by simp [genGo], rfl, by simp⟩
  | succ n ih =>
    intro t c
    obtain ⟨w, hsw, hwne⟩ := h t
    obtain ⟨ws, heq, hlen, hall⟩ := ih (t ++ [w]) (c + 1)
    refine ⟨w :: ws, ?_, by simp [hlen], ?_⟩
    · simp only [genGo, hsw, if_neg hwne]
      rw [heq]
      simp [List.append_assoc]
      omega
    · intro w' hw'
      rcases List.mem_cons.1 hw' with rfl | hmem
      · exact hwne
      · exact hall w' hmem

/-- Sentinel stripping does nothing when neither sentinel is at its end. -/
theorem stripTokens_noop (tokens : List String) (h1 : tokens.head? ≠ some "start")
    (h2 : tokens.getLast? ≠ some "end") : stripTokens tokens = tokens := by
  simp [stripTokens, h1, h2]

/-- `word_for_id`'s scan misses every pair whose id differs from the query. -/
theorem lookupWordById_eq_none (l : List (String × Nat)) (i : Nat)
    (h : ∀ p ∈ l, p.2 ≠ i) : lookupWordById l i = none := by
  induction l with
  | nil => rfl
  | cons hd tl ih =>
    obtain ⟨w, idx⟩ := hd
    have hne : idx ≠ i := h (w, idx) (List.mem_cons_self _ _)
    simp only [lookupWordById, if_neg hne]
    exact ih (fun p hp => h p (List.mem_cons_of_mem _ hp))

/-- With pairwise-distinct ids, `word_for_id`'s scan finds the word of any
stored pair. -/
theorem lookupWordById_of_nodup (l : List (String × Nat))
    (hnd : (l.map Prod.snd).Nodup) (w : String) (idx : Nat)
    (hmem : (w, idx) ∈ l) : lookupWordById l idx = some w := by
  induction l with
  | nil => simp at hmem
  | cons hd tl ih =>
    obtain ⟨w', idx'⟩ := hd
    simp only [List.map_cons, List.nodup_cons] at hnd
    rcases List.mem_cons.1 hmem with heq | hmem'
    · injection heq with hw hidx
      subst hw; subst hidx
      simp [lookupWordById]
    · have hne : idx' ≠ idx := by
        intro he
        apply hnd.1
        rw [he]
        exact List.mem_map.2 ⟨(w, idx), hmem', rfl⟩
      simp only [lookupWordById, if_neg hne]
      exact ih hnd.2 hmem'

/-- With pairwise-distinct words, the forward scan finds the id of any
stored pair. -/
theorem lookupIdByWord_of_nodup (l : List (String × Nat))
    (hnd : (l.map Prod.fst).Nodup) (w : String) (idx : Nat)
    (hmem : (w, idx) ∈ l) : lookupIdByWord l w = some idx := by
  induction l with
  | nil => simp at hmem
  | cons hd tl ih =>
    obtain ⟨w', idx'⟩ := hd
    simp only [List.map_cons, List.nodup_cons] at hnd
    rcases List.mem_cons.1 hmem with heq | hmem'
    · injection heq with hw hidx
      subst hw; subst hidx
      simp [lookupIdByWord]
    · have hne : w' ≠ w := by
        intro he
        apply hnd.1
        rw [he]
        exact List.mem_map.2 ⟨(w, idx), hmem', rfl⟩
      simp only [lookupIdByWord, if_neg hne]
      exact ih hnd.2 hmem'

/-- `split(",", 1)` finds the first comma: with a comma-free prefix it
returns that prefix and everything after the comma. -/
theorem splitFirstComma_append (h : List Char) (rest : List Char)
    (hh : ',' ∉ h) : splitFirstComma (h ++ ',' :: rest) = some (h, rest) := by
  induction h with
  | nil => simp [splitFirstComma]
  | cons c cs ih =>
    simp only [List.mem_cons, not_or] at hh
    have hc : c ≠ ',' := fun he => hh.1 he.symm
    have hrec := ih hh.2
    simp [splitFirstComma, hc, hrec]

end ImgCg

namespace ImgCg

/-! ## Claim theorems -/

/-- C1, as stated, is false for `generate_desc_onnx`: with a vocabulary whose
id 2 is `"end"` and a session whose argmax id is always 2, the onnx decode
loop halts via the end-token condition on step 1, yet the raw token sequence
it returns is `["start"]`, which does not end with the END token — the check
`if not word or word == "end": break` runs before the append. -/
theorem C1_counterexample :
    (generate_descOnnxFull vocabA sessEnd ()).2.1 = HaltReason.endToken ∧
    (generate_descOnnx vocabA sessEnd ()).getLast? ≠ some "end" := by
  constructor
  · rfl
  · decide

/-- C1 (amended): in `generate_desc` (backend), once the argmax id resolves to
a known word that word is appended before the END check, so every decoding
that halts via the end-token condition returns a raw token sequence ending
with `"end"`; in `generate_desc_onnx` (pa_backend) the END check precedes the
append, so `"end"` never occurs in the returned sequence at all. -/
theorem C1_end_append (F : Type) (tok : Tokenizer) (sess : F → List Nat → List Int)
    (feats : F) :
    ((generate_descFull tok sess feats).2.1 = HaltReason.endToken →
      (generate_desc tok sess feats).getLast? = some "end") ∧
    "end" ∉ generate_descOnnx tok sess feats := by
  constructor
  · intro h
    exact genGo_end_halt tok sess feats max_length ["start"] 0 h
  · exact genGoOnnx_no_end tok sess feats max_length ["start"] 0 (by decide)

/-- C1 witness: a concrete end-token halt of the backend decoder; its raw
sequence ends with `"end"`, while the onnx decoder never contains it. -/
theorem C1_witness :
    (generate_desc vocabA sessEnd ()).getLast? = some "end" ∧
    "end" ∉ generate_descOnnx vocabA sessEnd () :=
  ⟨(C1_end_append Unit vocabA sessEnd ()).1 rfl,
   (C1_end_append Unit vocabA sessEnd ()).2⟩

/-- C2, as stated, is false: with a vocabulary `{start ↦ 1, end ↦ 2, a ↦ 3}`
and a session whose argmax id is always 3 (the known, non-END word `"a"`),
the backend loop runs all 32 iterations, the raw sequence has 33 tokens, and
the stripped caption has 32 = `max_length` words, not `max_length - 1`. -/
theorem C2_counterexample :
    (stripTokens (generate_desc vocabA sessA ())).length ≠ max_length - 1 := by
  decide

/-- C2 (amended): if every step of the Inference Session resolves to a known
word different from END, the decode loop halts at the length bound and the
final caption after stripping the leading START contains exactly `max_length`
words (the loop appends one word in each of its `max_length` iterations). -/
theorem C2_length_bound (F : Type) (tok : Tokenizer) (sess : F → List Nat → List Int)
    (feats : F)
    (h : ∀ t : List String, ∃ w, stepWord tok sess feats t = some w ∧ w ≠ "end") :
    (generate_descFull tok sess feats).2.1 = HaltReason.lengthBound ∧
    (stripTokens (generate_desc tok sess feats)).length = max_length := by
  obtain ⟨ws, heq, hlen, hall⟩ := genGo_all_words tok sess feats h max_length ["start"] 0
  have hfull : generate_descFull tok sess feats = ("start" :: ws, HaltReason.lengthBound, 0 + max_length) := by
    simpa [generate_descFull] using heq
  refine ⟨by rw [hfull], ?_⟩
  have hdesc : generate_desc tok sess feats = "start" :: ws := by
    simp [generate_desc, hfull]
  rw [hdesc]
  have hne : ws.getLast? ≠ some "end" :=
    getLastNeOfNotMem ws (fun hm => hall "end" hm rfl)
  simp [stripTokens, hne, hlen]

/-- C2 witness: a concrete session that always yields the known word `"a"`;
the loop halts at the length bound with a 32-word caption. -/
theorem C2_witness :
    (generate_descFull vocabA sessA ()).2.1 = HaltReason.lengthBound ∧
    (stripTokens (generate_desc vocabA sessA ())).length = max_length :=
  C2_length_bound Unit vocabA sessA () (fun _ => ⟨"a", rfl, by decide⟩)

/-- C3: both decode loops always halt — they are total functions of the
session — and make at most `max_length` scoring calls (the exposed call
counter counts one `predict`/`session.run` per iteration), whatever score
vectors the session returns. -/
theorem C3_call_bound (F : Type) (tok : Tokenizer) (sess : F → List Nat → List Int)
    (feats : F) :
    (generate_descFull tok sess feats).2.2 ≤ max_length ∧
    (generate_descOnnxFull tok sess feats).2.2 ≤ max_length := by
  constructor
  · simpa using genGo_calls_le tok sess feats max_length ["start"] 0
  · simpa using genGoOnnx_calls_le tok sess feats max_length ["start"] 0

/-- C4: the padded id sequence handed to the session (the loops apply the
session to `pad_sequences (texts_to_sequences tok t) max_length`) always has
length exactly `max_length`; shorter id sequences are left-padded with 0 and
longer ones are truncated to their last `max_length` ids. -/
theorem C4_padding (seq : List Nat) :
    (pad_sequences seq max_length).length = max_length ∧
    (seq.length ≤ max_length →
      pad_sequences seq max_length = List.replicate (max_length - seq.length) 0 ++ seq) ∧
    (max_length < seq.length →
      pad_sequences seq max_length = seq.drop (seq.length - max_length)) := by
  refine ⟨?_, ?_, ?_⟩
  · simp only [pad_sequences, List.length_append, List.length_replicate, List.length_drop]
    omega
  · intro h
    have h0 : seq.length - max_length = 0 := Nat.sub_eq_zero_of_le h
    simp [pad_sequences, h0]
  · intro h
    have hd : (seq.drop (seq.length - max_length)).length = max_length := by
      rw [List.length_drop]; omega
    simp [pad_sequences, hd]

/-- C4 witness: the two-element id sequence `[5, 7]` is left-padded with 30
zeros to length 32. -/
theorem C4_witness :
    (pad_sequences [5, 7] max_length).length = max_length ∧
    pad_sequences [5, 7] max_length = List.replicate 30 0 ++ [5, 7] :=
  ⟨(C4_padding [5, 7]).1, (C4_padding [5, 7]).2.1 (by decide)⟩

end ImgCg

namespace ImgCg

/-- C5: `word_for_id` on an id assigned to no word returns `None` (it is a
total function, so it never raises), and when a decode step's word resolves to
`None` both loops halt at that step, returning the current token sequence
with nothing appended. -/
theorem C5_unknown_id :
    (∀ (tok : Tokenizer) (i : Nat),
      (∀ p ∈ tok.word_index, p.2 ≠ i) → word_for_id tok i = none) ∧
    (∀ (F : Type) (tok : Tokenizer) (sess : F → List Nat → List Int) (feats : F)
        (n : Nat) (t : List String) (calls : Nat),
      stepWord tok sess feats t = none →
      genGo tok sess feats (n + 1) t calls = (t, HaltReason.unknownToken, calls + 1)) ∧
    (∀ (F : Type) (tok : Tokenizer) (sess : F → List Nat → List Int) (feats : F)
        (n : Nat) (t : List String) (calls : Nat),
      stepWord tok sess feats t = none →
      genGoOnnx tok sess feats (n + 1) t calls = (t, HaltReason.unknownToken, calls + 1)) := by
  refine ⟨?_, ?_, ?_⟩
  · intro tok i h
    exact lookupWordById_eq_none tok.word_index i h
  · intro F tok sess feats n t calls h
    simp [genGo, h]
  · intro F tok sess feats n t calls h
    simp [genGoOnnx, h]

/-- C5 witness: id 99 is assigned to no word of `vocabA`, and a concrete
session whose argmax id 0 is unassigned makes both loops halt on step 1
without appending. -/
theorem C5_witness :
    word_for_id vocabA 99 = none ∧
    genGo vocabA sessUnk () 5 ["start"] 0 = (["start"], HaltReason.unknownToken, 1) ∧
    genGoOnnx vocabA sessUnk () 5 ["start"] 0 = (["start"], HaltReason.unknownToken, 1) :=
  ⟨C5_unknown_id.1 vocabA 99 (by decide),
   C5_unknown_id.2.1 Unit vocabA sessUnk () 4 ["start"] 0 rfl,
   C5_unknown_id.2.2 Unit vocabA sessUnk () 4 ["start"] 0 rfl⟩

/-- C6: with the dict-backed vocabulary (distinct words, distinct ids), the
forward lookup and `word_for_id` round-trip: for every stored pair the word's
assigned id maps back to the same word. -/
theorem C6_round_trip (tok : Tokenizer)
    (hwords : (tok.word_index.map Prod.fst).Nodup)
    (hids : (tok.word_index.map Prod.snd).Nodup) :
    ∀ w idx, (w, idx) ∈ tok.word_index →
      lookupIdByWord tok.word_index w = some idx ∧ word_for_id tok idx = some w :=
  fun w idx hmem =>
    ⟨lookupIdByWord_of_nodup tok.word_index hwords w idx hmem,
     lookupWordById_of_nodup tok.word_index hids w idx hmem⟩

/-- C6 witness: the word `"a"` of `vocabA` has id 3, and `word_for_id` on 3
returns `"a"` again. -/
theorem C6_witness :
    lookupIdByWord vocabA.word_index "a" = some 3 ∧ word_for_id vocabA 3 = some "a" :=
  C6_round_trip vocabA (by decide) (by decide) "a" 3 (by decide)

/-- C7, as stated, is false: stripping is not idempotent on every token list.
On `["start", "start"]` one strip yields `["start"]` and a second strip
yields `[]`. -/
theorem C7_counterexample :
    stripTokens (stripTokens ["start", "start"]) ≠ stripTokens ["start", "start"] := by
  decide

/-- C7 (amended): the strip step is a no-op on every token list whose first
element is not `"start"` and whose last element is not `"end"`; consequently
applying strip twice agrees with applying it once on every token list whose
once-stripped form again lacks `"start"` at the head and `"end"` at the tail
(but not on every token list, as repeated sentinels show). -/
theorem C7_strip (tokens : List String) :
    (tokens.head? ≠ some "start" → tokens.getLast? ≠ some "end" →
      stripTokens tokens = tokens) ∧
    ((stripTokens tokens).head? ≠ some "start" →
      (stripTokens tokens).getLast? ≠ some "end" →
      stripTokens (stripTokens tokens) = stripTokens tokens) :=
  ⟨fun h1 h2 => stripTokens_noop tokens h1 h2,
   fun h1 h2 => stripTokens_noop (stripTokens tokens) h1 h2⟩

/-- C7 witness: on `["a", "b"]` the strip step is a no-op and is idempotent. -/
theorem C7_witness :
    stripTokens ["a", "b"] = ["a", "b"] ∧
    stripTokens (stripTokens ["a", "b"]) = stripTokens ["a", "b"] :=
  ⟨(C7_strip ["a", "b"]).1 (by decide) (by decide),
   (C7_strip ["a", "b"]).2 (by decide) (by decide)⟩

end ImgCg

namespace ImgCg

/-- C8: the request handler's status mapping. A parsed body with no usable
image field gives 400; a decode failure gives 400 with an `error` body, and
the result is the same for every feature extractor (the extractor is never
invoked); a feature-extraction failure gives 500; and a completed decode
gives 200 with a caption and no `error` field. -/
theorem C8_status_mapping (B Img F : Type) (b64decode : List Char → Option B)
    (image_open : B → Option Img) (extract_features : Img → Option F)
    (tok : Tokenizer) (sess : F → List Nat → List Int)
    (gj : Option (Option (List Char))) :
    (gj.getD none = none →
      generate_caption_route b64decode image_open extract_features tok sess gj
        = ⟨400, some "No image provided", none⟩) ∧
    (∀ s : List Char, gj.getD none = some s → s ≠ [] →
      decode_data_url b64decode image_open s = none →
      generate_caption_route b64decode image_open extract_features tok sess gj
        = ⟨400, some "Failed to decode base64 image", none⟩) ∧
    (∀ (s : List Char) (img : Img), gj.getD none = some s → s ≠ [] →
      decode_data_url b64decode image_open s = some img →
      extract_features img = none →
      generate_caption_route b64decode image_open extract_features tok sess gj
        = ⟨500, some "Feature extraction failed", none⟩) ∧
    (∀ (s : List Char) (img : Img) (feats : F), gj.getD none = some s → s ≠ [] →
      decode_data_url b64decode image_open s = some img →
      extract_features img = some feats →
      generate_caption_route b64decode image_open extract_features tok sess gj
        = ⟨200, none, some (stripTokens (generate_desc tok sess feats))⟩) := by
  refine ⟨fun h => ?_, fun s hs hne hd => ?_, fun s img hs hne hd hx => ?_,
    fun s img feats hs hne hd hx => ?_⟩
  · simp [generate_caption_route, h]
  · simp [generate_caption_route, hs, hne, hd]
  · simp [generate_caption_route, hs, hne, hd, hx]
  · simp [generate_caption_route, hs, hne, hd, hx]

/-- C8 witness: concrete requests exercising all four branches of the status
mapping, the decode-failure branch with an extractor that would succeed. -/
theorem C8_witness :
    generate_caption_route b64None openUnit extractUnit vocabA sessEnd none
      = ⟨400, some "No image provided", none⟩ ∧
    generate_caption_route b64None openUnit extractUnit vocabA sessEnd
        (some (some ['x']))
      = ⟨400, some "Failed to decode base64 image", none⟩ ∧
    generate_caption_route b64Id openUnit extractNone vocabA sessEnd
        (some (some [',']))
      = ⟨500, some "Feature extraction failed", none⟩ ∧
    generate_caption_route b64Id openUnit extractUnit vocabA sessEnd
        (some (some [',']))
      = ⟨200, none, some (stripTokens (generate_desc vocabA sessEnd ()))⟩ :=
  ⟨(C8_status_mapping Unit Unit Unit b64None openUnit extractUnit vocabA sessEnd none).1 rfl,
   (C8_status_mapping Unit Unit Unit b64None openUnit extractUnit vocabA sessEnd
      (some (some ['x']))).2.1 ['x'] rfl (by decide) rfl,
   (C8_status_mapping (List Char) Unit Unit b64Id openUnit extractNone vocabA sessEnd
      (some (some [',']))).2.2.1 [','] () rfl (by decide) rfl rfl,
   (C8_status_mapping (List Char) Unit Unit b64Id openUnit extractUnit vocabA sessEnd
      (some (some [',']))).2.2.2 [','] () () rfl (by decide) rfl rfl⟩

/-- C9, as stated, is false: `decode_data_url` never inspects the header.
With the data URL `data:text/plain;base64,AAAA` — whose header is not a
supported image data-URL header in the spec's sense — and collaborators under
which the base64 payload decodes successfully to valid image bytes, decoding
succeeds and the request proceeds to a 200 response instead of being rejected
with a 400 decode failure. -/
theorem C9_counterexample :
    spec_isSupportedImageHeader ("data:text/plain;base64".toList) = false ∧
    decode_data_url b64Id openUnit ("data:text/plain;base64,AAAA".toList) = some () ∧
    (generate_caption_route b64Id openUnit extractUnit vocabA sessEnd
      (some (some ("data:text/plain;base64,AAAA".toList)))).status = 200 := by
  refine ⟨by decide, by decide, ?_⟩
  decide

/-- C9 (amended): the header part of the data URL is ignored by
`decode_data_url`: for payloads of shape `<header>,<rest>` the result is the
same for any two comma-free headers, supported or not; decode failure arises
only from a missing comma, a base64 decode failure, or an image-open
failure, never from the header alone. -/
theorem C9_header_ignored (B Img : Type) (b64decode : List Char → Option B)
    (image_open : B → Option Img) (h1 h2 rest : List Char)
    (hh1 : ',' ∉ h1) (hh2 : ',' ∉ h2) :
    decode_data_url b64decode image_open (h1 ++ ',' :: rest)
      = decode_data_url b64decode image_open (h2 ++ ',' :: rest) := by
  simp [decode_data_url, splitFirstComma_append h1 rest hh1,
    splitFirstComma_append h2 rest hh2]

/-- C9 witness: an image-typed header and a text-typed header give the same
decode result on the same payload. -/
theorem C9_witness :
    decode_data_url b64Id openUnit ("data:image/jpeg;base64".toList ++ ',' :: "AAAA".toList)
      = decode_data_url b64Id openUnit ("data:text/plain;base64".toList ++ ',' :: "AAAA".toList) :=
  C9_header_ignored (List Char) Unit b64Id openUnit
    ("data:image/jpeg;base64".toList) ("data:text/plain;base64".toList)
    ("AAAA".toList) (by decide) (by decide)

/-- C10: a body that fails to parse as JSON (`request.get_json(silent=True)`
returns `None`), or parses without an `image` key, or with a falsy (empty)
`image` value, yields status 400 with body `{"error": "No image provided"}`;
the result is this constant for every decode/extract collaborator, so neither
decoding nor feature extraction is attempted. -/
theorem C10_no_image (B Img F : Type) (b64decode : List Char → Option B)
    (image_open : B → Option Img) (extract_features : Img → Option F)
    (tok : Tokenizer) (sess : F → List Nat → List Int)
    (gj : Option (Option (List Char)))
    (h : gj = none ∨ gj = some none ∨ gj = some (some [])) :
    generate_caption_route b64decode image_open extract_features tok sess gj
      = ⟨400, some "No image provided", none⟩ := by
  rcases h with rfl | rfl | rfl <;> simp [generate_caption_route]

/-- C10 witness: a concrete unparseable body yields the 400 response. -/
theorem C10_witness :
    generate_caption_route b64None openUnit extractUnit vocabA sessEnd none
      = ⟨400, some "No image provided", none⟩ :=
  C10_no_image Unit Unit Unit b64None openUnit extractUnit vocabA sessEnd none
    (Or.inl rfl)

end ImgCg
